import Mathlib

/-
  Verification of the meeting-summarizer backend (src/main.py).

  The coordination layer is embedded shallowly:
  - the job store (the global dict named jobs) is an association list from
    job identifier to a record with a status and an optional error text;
  - the three agent definitions are static configuration records; the
    attribute values are transcribed from the source, including the fact
    that the clarifier instructions argument is a parenthesized expression
    with a trailing comma, i.e. a one-element tuple rather than a string;
  - the external agent runner (Runner.run) is an oracle: a function from a
    call description (agent, input text, optional context) to either an
    output text or the textual description of a raised error;
  - the background routine _run_agents is a pure function of the oracle
    returning the list of runner calls it attempted together with the
    outcome it applies to the store;
  - the whole system is a transition relation on (store, scheduled tasks):
    a submit step models the POST /summarize handler, a finish step models
    one scheduled _run_agents task running to completion.  The cooperative
    single-threaded scheduler of the source means store mutations of one
    task never interleave with another, so a finish step is atomic.
-/

namespace MeetingSummarizer

/-- Job record held in the in-memory store: a status string plus the
optional error text set by the failure branch of the background routine. -/
structure Job where
  status : String
  error : Option String := none
deriving DecidableEq, Repr

/-- Instruction value of an agent definition as the Python expression
evaluates: either a plain string or a tuple of strings (a parenthesized
expression with a trailing comma is a tuple in Python). -/
inductive Instructions where
  | str (s : String)
  | tuple (elems : List String)
deriving DecidableEq, Repr

/-- True exactly when the instruction value is a plain string. -/
def Instructions.isStr : Instructions → Bool
  | .str _ => true
  | .tuple _ => false

/-- A callable tool bound to an agent, identified by its function name. -/
structure ToolDef where
  toolName : String
deriving DecidableEq, Repr

/-- Stubbed email tool: returns the log line it would print and the fixed
acknowledgement token. -/
def send_email (recipients : List String) (subject : String) (body : String) :
    String × String :=
  ("[EMAIL] To: " ++ String.intercalate ", " recipients ++
    "\nSubject: " ++ subject ++ "\n" ++ body, "email_sent")

/-- Tool binding handed to the summarizer agent. -/
def sendEmailTool : ToolDef := ⟨"send_email"⟩

/-- Static agent configuration record: name, instructions, model
identifier, tool bindings. -/
structure Agent where
  name : String
  instructions : Instructions
  model : String
  tools : List ToolDef := []
deriving DecidableEq, Repr

/-- The Transcriber agent definition from the source. -/
def transcriber : Agent :=
  { name := "Transcriber"
    instructions := .str
      "You turn raw meeting audio transcripts into clean, speaker-labelled text."
    model := "gemini-1.5-flash" }

/-- The Clarifier agent definition from the source.  The instructions
argument in the source is a parenthesized string followed by a trailing
comma, so the Python value is a one-element tuple of strings. -/
def clarifier : Agent :=
  { name := "Clarifier"
    instructions := .tuple
      ["Read the transcript and ask the summarizer to resolve any ambiguous points before final summary is produced."]
    model := "gemini-1.5-flash" }

/-- The Summarizer agent definition from the source, with the send_email
tool bound. -/
def summarizer : Agent :=
  { name := "Summarizer"
    instructions := .str
      "Produce a concise 1-page summary plus a Mermaid timeline. Then call send_email to deliver it."
    model := "gemini-1.5-flash"
    tools := [sendEmailTool] }

/-- Context payload passed to the third runner call. -/
structure RunContext where
  recipients : List String
  subject : String
deriving DecidableEq, Repr

/-- One invocation of the external runner: the agent definition, the input
text, and the optional context payload. -/
structure RunCall where
  agent : Agent
  input : String
  context : Option RunContext := none
deriving DecidableEq, Repr

/-- Oracle for the external agent runner: each call either yields an output
text or raises an error with the given textual description. -/
def RunnerOracle : Type := RunCall → Except String String

/-- The background routine _run_agents of the source, as a function of the
runner oracle.  It returns the list of runner calls actually attempted (in
order) and the outcome: ok when all three stages succeed, or the textual
description of the first raised error.  The try block aborts at the first
error, so no later call appears in the list after a failing one.  Stage 2
output falls back to the stage 1 output when it is empty (Python or on
strings), and the stage 3 output is discarded by the source. -/
def run_agents (beh : RunnerOracle) (job_id transcript : String) :
    List RunCall × Except String Unit :=
  let call1 : RunCall := ⟨transcriber, transcript, none⟩
  match beh call1 with
  | .error e => ([call1], .error e)
  | .ok clean_text =>
    let call2 : RunCall := ⟨clarifier, clean_text, none⟩
    match beh call2 with
    | .error e => ([call1, call2], .error e)
    | .ok output2 =>
      let clarified := if output2 = "" then clean_text else output2
      let call3 : RunCall := ⟨summarizer, clarified,
        some ⟨["team@example.com"], "Summary #" ++ job_id⟩⟩
      match beh call3 with
      | .error e => ([call1, call2, call3], .error e)
      | .ok _ => ([call1, call2, call3], .ok ())

/-- The in-memory job store: the global dict jobs, keyed by job id. -/
def Store : Type := List (String × Job)

/-- Dictionary lookup on the store (first matching key). -/
def lookupJob : Store → String → Option Job
  | [], _ => none
  | (k, j) :: rest, id => if k = id then some j else lookupJob rest id

/-- Dictionary update of the record at an existing key; when the key is
absent the store is unchanged (the theorems below prove the routine only
ever indexes present keys, matching the KeyError-free behavior claimed). -/
def setJob (s : Store) (id : String) (f : Job → Job) : Store :=
  s.map fun p => if p.1 = id then (p.1, f p.2) else p

/-- Store mutation performed at the end of _run_agents: the success branch
sets status to completed (leaving any error key as it is, exactly as the
source does), the failure branch sets status to failed and the error text. -/
def applyOutcome (s : Store) (id : String) : Except String Unit → Store
  | .ok _ => setJob s id fun j => { j with status := "completed" }
  | .error e => setJob s id fun j => { j with status := "failed", error := some e }

/-- Whole-system state: the job store plus the scheduled background tasks
(job id and transcript) that have not yet run. -/
structure SysState where
  jobs : Store
  pending : List (String × String)

/-- Response body of POST /summarize together with the HTTP code (200). -/
structure SubmitResponse where
  job_id : String
  status : String
deriving DecidableEq, Repr

/-- The POST /summarize handler: given the generated uuid, it inserts the
record with status started, schedules the background task, and returns 200
with the job id and the queued acknowledgement. -/
def summarize_job (s : SysState) (transcript job_id : String) :
    (Nat × SubmitResponse) × SysState :=
  ((200, ⟨job_id, "queued"⟩),
    ⟨(job_id, ⟨"started", none⟩) :: s.jobs, s.pending ++ [(job_id, transcript)]⟩)

/-- The GET /jobs/job_id handler: 404 with detail "job not found" for an
unknown id, otherwise 200 with the current record. -/
def get_job (s : Store) (job_id : String) : Except (Nat × String) Job :=
  match lookupJob s job_id with
  | none => .error (404, "job not found")
  | some j => .ok j

/-- The GET /health handler. -/
def health : List (String × String) := [("status", "ok")]

/-- System state after one scheduled task (split out of the pending list as
pre ++ task :: post) runs _run_agents to completion and applies its
outcome to the store. -/
def finishState (beh : RunnerOracle) (s : SysState)
    (pre post : List (String × String)) (job_id transcript : String) : SysState :=
  ⟨applyOutcome s.jobs job_id (run_agents beh job_id transcript).2, pre ++ post⟩

/-- One step of the system: either a valid submission arrives (with a fresh
uuid, modelling collision-freeness of uuid4) or a scheduled background task
runs to completion.  The cooperative scheduler makes each step atomic with
respect to the store. -/
inductive Step (beh : RunnerOracle) : SysState → SysState → Prop where
  | submit (s : SysState) (transcript job_id : String)
      (fresh : lookupJob s.jobs job_id = none) :
      Step beh s (summarize_job s transcript job_id).2
  | finish (s : SysState) (pre post : List (String × String))
      (job_id transcript : String)
      (hp : s.pending = pre ++ (job_id, transcript) :: post) :
      Step beh s (finishState beh s pre post job_id transcript)

/-- States reachable from the empty server start state. -/
inductive Reachable (beh : RunnerOracle) : SysState → Prop where
  | init : Reachable beh ⟨[], []⟩
  | step {s s' : SysState} : Reachable beh s → Step beh s s' → Reachable beh s'

/-- Runner oracle under which every call succeeds with a fixed output. -/
def behOK : RunnerOracle := fun _ => Except.ok "stage output"

/-- Runner oracle under which the first call raises an error whose textual
description is the word boom. -/
def behBoom : RunnerOracle := fun _ => Except.error "boom"

/-- Runner oracle under which the first call raises an error whose textual
description is empty, as happens in Python for an exception constructed
with no message, where str of the exception is the empty string. -/
def behEmptyErr : RunnerOracle := fun _ => Except.error ""

/-- Runner oracle under which the transcriber yields clean text, the
clarifier yields the empty output and the summarizer succeeds. -/
def behClarEmpty : RunnerOracle := fun c =>
  if c.agent.name = "Transcriber" then Except.ok "clean text"
  else if c.agent.name = "Clarifier" then Except.ok ""
  else Except.ok "summary"

/-- Runner oracle under which all three stages succeed with distinct
non-empty outputs. -/
def behClar : RunnerOracle := fun c =>
  if c.agent.name = "Transcriber" then Except.ok "clean text"
  else if c.agent.name = "Clarifier" then Except.ok "clarified text"
  else Except.ok "summary"

/-- State after one valid submission into the empty start state. -/
def submittedState : SysState :=
  (summarize_job ⟨[], []⟩ "raw transcript" "job-1").2

/-- State after the submitted job runs under the empty-description
error oracle. -/
def emptyErrFailedState : SysState :=
  finishState behEmptyErr submittedState [] [] "job-1" "raw transcript"

/-- Lookup of a key that has a record is membership in the key list. -/
theorem lookupJob_isSome_iff (s : Store) (id : String) :
    (lookupJob s id).isSome ↔ id ∈ s.map Prod.fst := by
  induction s with
  | nil => simp [lookupJob]
  | cons p rest ih =>
    obtain ⟨k, j⟩ := p
    by_cases hk : k = id
    · subst hk; simp [lookupJob]
    · simp [lookupJob, hk, ih, Ne.symm hk]

/-- Absent key means the key is not in the key list. -/
theorem lookupJob_eq_none_iff (s : Store) (id : String) :
    lookupJob s id = none ↔ id ∉ s.map Prod.fst := by
  rw [← lookupJob_isSome_iff]
  cases lookupJob s id <;> simp

/-- Updating one key changes only the record at that key. -/
theorem lookupJob_setJob (s : Store) (id id' : String) (f : Job → Job) :
    lookupJob (setJob s id f) id' =
      if id' = id then Option.map f (lookupJob s id) else lookupJob s id' := by
  induction s with
  | nil => by_cases h : id' = id <;> simp [setJob, lookupJob, h]
  | cons p rest ih =>
    obtain ⟨k, j⟩ := p
    have hset : setJob ((k, j) :: rest) id f =
        (if k = id then (k, f j) else (k, j)) :: setJob rest id f := by
      simp [setJob]
    rw [hset]
    by_cases hk : k = id
    · subst hk
      rw [if_pos rfl]
      by_cases hk' : k = id'
      · subst hk'
        simp [lookupJob]
      · have h1 : ¬ id' = k := fun h => hk' h.symm
        simp only [lookupJob, if_neg hk', if_neg h1, ih]
    · rw [if_neg hk]
      by_cases hk' : k = id'
      · subst hk'
        simp [lookupJob, hk]
      · simp only [lookupJob, if_neg hk', if_neg hk, ih]

/-- Updating a record never changes the key list. -/
theorem setJob_keys (s : Store) (id : String) (f : Job → Job) :
    (setJob s id f).map Prod.fst = s.map Prod.fst := by
  induction s with
  | nil => rfl
  | cons p rest ih =>
    by_cases h : p.1 = id <;> simp [setJob, h] <;> simpa [setJob] using ih

/-- Applying either outcome branch never changes the key list. -/
theorem applyOutcome_keys (s : Store) (id : String) (out : Except String Unit) :
    (applyOutcome s id out).map Prod.fst = s.map Prod.fst := by
  cases out <;> simp [applyOutcome, setJob_keys]

/-- Reachability invariant of the system: keys are unique, every scheduled
task points at a record that is still started with no error, and every
recorded error text marks a failed record and is exactly an error the
runner produced for that job. -/
structure Inv (beh : RunnerOracle) (s : SysState) : Prop where
  keysNodup : (s.jobs.map Prod.fst).Nodup
  pendingNodup : (s.pending.map Prod.fst).Nodup
  pendingStarted : ∀ p ∈ s.pending, lookupJob s.jobs p.1 = some ⟨"started", none⟩
  errorFailed : ∀ id j, lookupJob s.jobs id = some j → ∀ e, j.error = some e →
    j.status = "failed" ∧ ∃ t, (run_agents beh id t).2 = Except.error e

/-- A pending task id is never the id of another pending task. -/
theorem pending_key_unique {pending : List (String × String)}
    {pre post : List (String × String)} {id t : String}
    (hnd : (pending.map Prod.fst).Nodup)
    (hp : pending = pre ++ (id, t) :: post) :
    ∀ p ∈ pre ++ post, p.1 ≠ id := by
  subst hp
  intro p hpmem heq
  rw [List.map_append, List.map_cons] at hnd
  have hmid : id ∉ pre.map Prod.fst ++ post.map Prod.fst := by
    have h2 := List.nodup_middle.1 hnd
    exact (List.nodup_cons.1 h2).1
  apply hmid
  rw [List.mem_append] at hpmem ⊢
  cases hpmem with
  | inl h => exact Or.inl (heq ▸ List.mem_map_of_mem Prod.fst h)
  | inr h => exact Or.inr (heq ▸ List.mem_map_of_mem Prod.fst h)

/-- The invariant holds in the start state. -/
theorem inv_init (beh : RunnerOracle) : Inv beh ⟨[], []⟩ := by
  refine ⟨by simp, by simp, by simp, ?_⟩
  intro id j h
  simp [lookupJob] at h

/-- The invariant is preserved by every step. -/
theorem inv_step {beh : RunnerOracle} {s s' : SysState}
    (hinv : Inv beh s) (hst : Step beh s s') : Inv beh s' := by
  cases hst with
  | submit transcript job_id fresh =>
    have hfresh_keys : job_id ∉ s.jobs.map Prod.fst :=
      (lookupJob_eq_none_iff s.jobs job_id).1 fresh
    have hfresh_pending : job_id ∉ s.pending.map Prod.fst := by
      intro hmem
      obtain ⟨p, hp, hfst⟩ := List.mem_map.1 hmem
      have := hinv.pendingStarted p hp
      rw [hfst] at this
      simp [this] at fresh
    refine ⟨?_, ?_, ?_, ?_⟩
    · show (((job_id, (⟨"started", none⟩ : Job)) :: s.jobs).map Prod.fst).Nodup
      rw [List.map_cons, List.nodup_cons]
      exact ⟨hfresh_keys, hinv.keysNodup⟩
    · simp only [summarize_job, List.map_append, List.map_cons, List.map_nil]
      rw [List.nodup_append]
      exact ⟨hinv.pendingNodup, by simp, by simpa using hfresh_pending⟩
    · intro p hp
      simp only [summarize_job, List.mem_append, List.mem_singleton] at hp
      cases hp with
      | inl h =>
        have hne : job_id ≠ p.1 := by
          intro heq
          exact hfresh_pending (heq ▸ List.mem_map_of_mem Prod.fst h)
        simpa [summarize_job, lookupJob, hne] using hinv.pendingStarted p h
      | inr h => subst h; simp [summarize_job, lookupJob]
    · intro id j hlook e herr
      have hlook2 : lookupJob ((job_id, (⟨"started", none⟩ : Job)) :: s.jobs) id
          = some j := hlook
      by_cases hid : job_id = id
      · subst hid
        rw [lookupJob, if_pos rfl] at hlook2
        obtain rfl : (⟨"started", none⟩ : Job) = j := by injection hlook2
        simp at herr
      · rw [lookupJob, if_neg hid] at hlook2
        exact hinv.errorFailed id j hlook2 e herr
  | finish pre post job_id transcript hp =>
    have hmid : (job_id, transcript) ∈ s.pending := by
      rw [hp]
      exact List.mem_append_right pre (List.mem_cons_self _ _)
    have hstarted := hinv.pendingStarted _ hmid
    have hothers := pending_key_unique hinv.pendingNodup hp
    refine ⟨?_, ?_, ?_, ?_⟩
    · simpa [finishState, applyOutcome_keys] using hinv.keysNodup
    · have h := hinv.pendingNodup
      rw [hp, List.map_append, List.map_cons] at h
      have h2 := List.nodup_middle.1 h
      rw [List.nodup_cons] at h2
      simpa [finishState, List.map_append] using h2.2
    · intro p hpmem
      simp only [finishState] at hpmem
      have hne : p.1 ≠ job_id := hothers p hpmem
      have hpmem' : p ∈ s.pending := by
        rw [hp]
        rcases List.mem_append.1 hpmem with h | h
        · exact List.mem_append_left _ h
        · exact List.mem_append_right _ (List.mem_cons_of_mem _ h)
      cases hout : (run_agents beh job_id transcript).2 with
      | ok u =>
        simp only [finishState, hout, applyOutcome, lookupJob_setJob, if_neg hne]
        exact hinv.pendingStarted p hpmem'
      | error e =>
        simp only [finishState, hout, applyOutcome, lookupJob_setJob, if_neg hne]
        exact hinv.pendingStarted p hpmem'
    · intro id j hlook e herr
      by_cases hid : id = job_id
      · subst hid
        cases hout : (run_agents beh id transcript).2 with
        | ok u =>
          have hl2 : lookupJob (finishState beh s pre post id transcript).jobs id
              = some ⟨"completed", none⟩ := by
            simp only [finishState, hout, applyOutcome]
            rw [lookupJob_setJob, if_pos rfl, hstarted]
            rfl
          rw [hl2] at hlook
          obtain rfl : (⟨"completed", none⟩ : Job) = j := by injection hlook
          simp at herr
        | error e' =>
          have hl2 : lookupJob (finishState beh s pre post id transcript).jobs id
              = some ⟨"failed", some e'⟩ := by
            simp only [finishState, hout, applyOutcome]
            rw [lookupJob_setJob, if_pos rfl, hstarted]
            rfl
          rw [hl2] at hlook
          obtain rfl : (⟨"failed", some e'⟩ : Job) = j := by injection hlook
          simp only [Job.error, Option.some.injEq] at herr
          subst herr
          exact ⟨rfl, transcript, hout⟩
      · cases hout : (run_agents beh job_id transcript).2 with
        | ok u =>
          simp only [finishState, hout, applyOutcome, lookupJob_setJob,
            if_neg hid] at hlook
          exact hinv.errorFailed id j hlook e herr
        | error e' =>
          simp only [finishState, hout, applyOutcome, lookupJob_setJob,
            if_neg hid] at hlook
          exact hinv.errorFailed id j hlook e herr

/-- Every reachable state satisfies the invariant. -/
theorem reachable_inv {beh : RunnerOracle} {s : SysState}
    (h : Reachable beh s) : Inv beh s := by
  induction h with
  | init => exact inv_init beh
  | step _ hst ih => exact inv_step ih hst

/-- Reachability is preserved along any sequence of steps. -/
theorem reachable_star {beh : RunnerOracle} {s s' : SysState}
    (h : Reachable beh s) (hstar : Relation.ReflTransGen (Step beh) s s') :
    Reachable beh s' := by
  induction hstar with
  | refl => exact h
  | tail _ hstep ih => exact Reachable.step ih hstep

/-- A record whose status is no longer started is not changed by any step. -/
theorem frozen_step {beh : RunnerOracle} {s s' : SysState} {id : String} {j : Job}
    (hinv : Inv beh s) (hj : lookupJob s.jobs id = some j)
    (hterm : j.status ≠ "started") (hst : Step beh s s') :
    lookupJob s'.jobs id = some j := by
  cases hst with
  | submit transcript job_id fresh =>
    have hne : job_id ≠ id := by
      intro heq
      rw [heq] at fresh
      rw [fresh] at hj
      cases hj
    show lookupJob ((job_id, (⟨"started", none⟩ : Job)) :: s.jobs) id = some j
    rw [lookupJob, if_neg hne]
    exact hj
  | finish pre post job_id transcript hp =>
    have hne : id ≠ job_id := by
      intro heq
      subst heq
      have hmid : (id, transcript) ∈ s.pending := by
        rw [hp]
        exact List.mem_append_right pre (List.mem_cons_self _ _)
      have hstarted := hinv.pendingStarted _ hmid
      rw [hj] at hstarted
      have h2 : j = ⟨"started", none⟩ := by injection hstarted
      exact hterm (h2 ▸ rfl)
    cases hout : (run_agents beh job_id transcript).2 with
    | ok u =>
      show lookupJob
        (applyOutcome s.jobs job_id (run_agents beh job_id transcript).2) id = some j
      rw [hout]
      simp only [applyOutcome]
      rw [lookupJob_setJob, if_neg hne]
      exact hj
    | error e =>
      show lookupJob
        (applyOutcome s.jobs job_id (run_agents beh job_id transcript).2) id = some j
      rw [hout]
      simp only [applyOutcome]
      rw [lookupJob_setJob, if_neg hne]
      exact hj

/-- A terminal record persists unchanged through any number of steps. -/
theorem frozen_star {beh : RunnerOracle} {s s' : SysState} {id : String} {j : Job}
    (hr : Reachable beh s) (hj : lookupJob s.jobs id = some j)
    (hterm : j.status ≠ "started")
    (hstar : Relation.ReflTransGen (Step beh) s s') :
    lookupJob s'.jobs id = some j := by
  induction hstar with
  | refl => exact hj
  | tail h1 hstep ih =>
    exact frozen_step (reachable_inv (reachable_star hr h1)) ih hterm hstep

/-- When the background routine succeeds, the finishing task leaves its
record completed with no error. -/
theorem finish_lookup_ok {beh : RunnerOracle} {s : SysState}
    {pre post : List (String × String)} {job_id transcript : String}
    (hinv : Inv beh s) (hp : s.pending = pre ++ (job_id, transcript) :: post)
    (hok : (run_agents beh job_id transcript).2 = Except.ok ()) :
    lookupJob (finishState beh s pre post job_id transcript).jobs job_id
      = some ⟨"completed", none⟩ := by
  have hmid : (job_id, transcript) ∈ s.pending := by
    rw [hp]
    exact List.mem_append_right pre (List.mem_cons_self _ _)
  have hstarted := hinv.pendingStarted _ hmid
  show lookupJob
    (applyOutcome s.jobs job_id (run_agents beh job_id transcript).2) job_id = _
  rw [hok]
  simp only [applyOutcome]
  rw [lookupJob_setJob, if_pos rfl, hstarted]
  rfl

/-- When the background routine raises, the finishing task leaves its
record failed with the error text recorded verbatim. -/
theorem finish_lookup_error {beh : RunnerOracle} {s : SysState}
    {pre post : List (String × String)} {job_id transcript e : String}
    (hinv : Inv beh s) (hp : s.pending = pre ++ (job_id, transcript) :: post)
    (herr : (run_agents beh job_id transcript).2 = Except.error e) :
    lookupJob (finishState beh s pre post job_id transcript).jobs job_id
      = some ⟨"failed", some e⟩ := by
  have hmid : (job_id, transcript) ∈ s.pending := by
    rw [hp]
    exact List.mem_append_right pre (List.mem_cons_self _ _)
  have hstarted := hinv.pendingStarted _ hmid
  show lookupJob
    (applyOutcome s.jobs job_id (run_agents beh job_id transcript).2) job_id = _
  rw [herr]
  simp only [applyOutcome]
  rw [lookupJob_setJob, if_pos rfl, hstarted]
  rfl

/-- C1 (amended): if any of the three sequential runner calls raises, the
job record ends with status failed and an error field equal to the textual
description of the raised error, hence non-empty whenever that description
is non-empty, and no later stage call is attempted: a stage 1 failure
leaves only the stage 1 call attempted, and a stage 2 failure leaves only
the stage 1 and stage 2 calls attempted. -/
theorem runner_error_fails_job_and_aborts (beh : RunnerOracle) (s : SysState)
    (pre post : List (String × String)) (job_id transcript e : String)
    (hr : Reachable beh s) (hp : s.pending = pre ++ (job_id, transcript) :: post)
    (herr : (run_agents beh job_id transcript).2 = Except.error e) :
    lookupJob (finishState beh s pre post job_id transcript).jobs job_id
      = some ⟨"failed", some e⟩ ∧
    (beh ⟨transcriber, transcript, none⟩ = Except.error e →
      (run_agents beh job_id transcript).1 = [⟨transcriber, transcript, none⟩]) ∧
    (∀ clean_text, beh ⟨transcriber, transcript, none⟩ = Except.ok clean_text →
      beh ⟨clarifier, clean_text, none⟩ = Except.error e →
      (run_agents beh job_id transcript).1 =
        [⟨transcriber, transcript, none⟩, ⟨clarifier, clean_text, none⟩]) := by
  refine ⟨finish_lookup_error (reachable_inv hr) hp herr, ?_, ?_⟩
  · intro h1
    simp only [run_agents, h1]
  · intro clean_text h1 h2
    simp only [run_agents, h1, h2]

/-- Witness for C1: a concrete submission whose stage 1 call raises boom,
run through the amended theorem. -/
theorem runner_error_fails_job_and_aborts_witness :
    Reachable behBoom submittedState ∧
    submittedState.pending = [] ++ ("job-1", "raw transcript") :: [] ∧
    (run_agents behBoom "job-1" "raw transcript").2 = Except.error "boom" ∧
    (lookupJob (finishState behBoom submittedState [] [] "job-1" "raw transcript").jobs
        "job-1" = some ⟨"failed", some "boom"⟩ ∧
      (behBoom ⟨transcriber, "raw transcript", none⟩ = Except.error "boom" →
        (run_agents behBoom "job-1" "raw transcript").1 =
          [⟨transcriber, "raw transcript", none⟩]) ∧
      (∀ clean_text, behBoom ⟨transcriber, "raw transcript", none⟩ = Except.ok clean_text →
        behBoom ⟨clarifier, clean_text, none⟩ = Except.error "boom" →
        (run_agents behBoom "job-1" "raw transcript").1 =
          [⟨transcriber, "raw transcript", none⟩, ⟨clarifier, clean_text, none⟩])) :=
  ⟨Reachable.step Reachable.init (Step.submit ⟨[], []⟩ "raw transcript" "job-1" rfl),
   rfl, rfl,
   runner_error_fails_job_and_aborts behBoom submittedState [] [] "job-1" "raw transcript"
     "boom"
     (Reachable.step Reachable.init (Step.submit ⟨[], []⟩ "raw transcript" "job-1" rfl))
     rfl rfl⟩

/-- Counterexample for C1 as stated: when stage 1 raises an error whose
textual description is empty (in Python, str of an exception built with no
message is the empty string), the reachable final record has status failed
but its error field holds the empty string, so the error field is not
non-empty; this refutes the non-empty part of the claim. -/
theorem empty_error_description_counterexample :
    Reachable behEmptyErr emptyErrFailedState ∧
    lookupJob emptyErrFailedState.jobs "job-1" = some ⟨"failed", some ""⟩ ∧
    ¬ (∀ j, lookupJob emptyErrFailedState.jobs "job-1" = some j →
        ∀ e, j.error = some e → e ≠ "") := by
  refine ⟨?_, ?_, ?_⟩
  · exact Reachable.step
      (Reachable.step Reachable.init (Step.submit ⟨[], []⟩ "raw transcript" "job-1" rfl))
      (Step.finish submittedState [] [] "job-1" "raw transcript" rfl)
  · decide
  · intro h
    exact h ⟨"failed", some ""⟩ (by decide) "" rfl rfl

/-- C2: when the clarifier stage returns an empty output, the summarizer
call receives as its input the clean text produced by the transcriber
stage, not the empty clarifier output. -/
theorem clarifier_empty_output_fallback (beh : RunnerOracle)
    (job_id transcript clean_text : String)
    (h1 : beh ⟨transcriber, transcript, none⟩ = Except.ok clean_text)
    (h2 : beh ⟨clarifier, clean_text, none⟩ = Except.ok "") :
    (run_agents beh job_id transcript).1 =
      [⟨transcriber, transcript, none⟩, ⟨clarifier, clean_text, none⟩,
       ⟨summarizer, clean_text,
        some ⟨["team@example.com"], "Summary #" ++ job_id⟩⟩] := by
  cases h3 : beh ⟨summarizer, clean_text,
      some ⟨["team@example.com"], "Summary #" ++ job_id⟩⟩ with
  | ok out => simp [run_agents, h1, h2, h3]
  | error e => simp [run_agents, h1, h2, h3]

/-- Witness for C2: a concrete oracle whose clarifier stage yields the
empty output; the summarizer call receives the clean text. -/
theorem clarifier_empty_output_fallback_witness :
    behClarEmpty ⟨transcriber, "raw transcript", none⟩ = Except.ok "clean text" ∧
    behClarEmpty ⟨clarifier, "clean text", none⟩ = Except.ok "" ∧
    (run_agents behClarEmpty "job-1" "raw transcript").1 =
      [⟨transcriber, "raw transcript", none⟩, ⟨clarifier, "clean text", none⟩,
       ⟨summarizer, "clean text",
        some ⟨["team@example.com"], "Summary #job-1"⟩⟩] := by
  refine ⟨rfl, rfl, ?_⟩
  have h := clarifier_empty_output_fallback behClarEmpty "job-1" "raw transcript"
    "clean text" rfl rfl
  simpa using h

/-- C4: if all three runner calls succeed, the finishing task leaves the
job record completed with no error field, and the record never changes
afterwards along any further steps of the system. -/
theorem all_stages_ok_job_completed (beh : RunnerOracle) (s : SysState)
    (pre post : List (String × String)) (job_id transcript : String)
    (hr : Reachable beh s) (hp : s.pending = pre ++ (job_id, transcript) :: post)
    (hok : (run_agents beh job_id transcript).2 = Except.ok ()) :
    lookupJob (finishState beh s pre post job_id transcript).jobs job_id
      = some ⟨"completed", none⟩ ∧
    ∀ s'', Relation.ReflTransGen (Step beh)
        (finishState beh s pre post job_id transcript) s'' →
      lookupJob s''.jobs job_id = some ⟨"completed", none⟩ := by
  have hinv := reachable_inv hr
  have h1 := finish_lookup_ok hinv hp hok
  refine ⟨h1, fun s'' hstar => ?_⟩
  have hr' : Reachable beh (finishState beh s pre post job_id transcript) :=
    Reachable.step hr (Step.finish s pre post job_id transcript hp)
  exact frozen_star hr' h1 (by decide) hstar

/-- Witness for C4: a concrete submission whose three stages all succeed
reaches the completed record with no error field. -/
theorem all_stages_ok_job_completed_witness :
    Reachable behOK submittedState ∧
    submittedState.pending = [] ++ ("job-1", "raw transcript") :: [] ∧
    (run_agents behOK "job-1" "raw transcript").2 = Except.ok () ∧
    (lookupJob (finishState behOK submittedState [] [] "job-1" "raw transcript").jobs
        "job-1" = some ⟨"completed", none⟩ ∧
      ∀ s'', Relation.ReflTransGen (Step behOK)
          (finishState behOK submittedState [] [] "job-1" "raw transcript") s'' →
        lookupJob s''.jobs "job-1" = some ⟨"completed", none⟩) :=
  ⟨Reachable.step Reachable.init (Step.submit ⟨[], []⟩ "raw transcript" "job-1" rfl),
   rfl, rfl,
   all_stages_ok_job_completed behOK submittedState [] [] "job-1" "raw transcript"
     (Reachable.step Reachable.init (Step.submit ⟨[], []⟩ "raw transcript" "job-1" rfl))
     rfl rfl⟩

/-- C5: a valid submission returns HTTP 200 with the freshly generated job
id and status queued, and before the response is returned the store holds
a record with status started for that id, so an immediate status query
returns the record rather than not-found. -/
theorem submit_returns_queued_and_record_started (s : SysState)
    (transcript job_id : String) (fresh : lookupJob s.jobs job_id = none) :
    (summarize_job s transcript job_id).1 = (200, ⟨job_id, "queued"⟩) ∧
    lookupJob ((summarize_job s transcript job_id).2).jobs job_id
      = some ⟨"started", none⟩ ∧
    get_job ((summarize_job s transcript job_id).2).jobs job_id
      = Except.ok ⟨"started", none⟩ := by
  have h2 : lookupJob ((summarize_job s transcript job_id).2).jobs job_id
      = some ⟨"started", none⟩ := by
    show lookupJob ((job_id, (⟨"started", none⟩ : Job)) :: s.jobs) job_id = _
    rw [lookupJob, if_pos rfl]
  refine ⟨rfl, h2, ?_⟩
  simp only [get_job, h2]

/-- Witness for C5: the example submission of the spec into the empty
store. -/
theorem submit_returns_queued_and_record_started_witness :
    lookupJob (⟨[], []⟩ : SysState).jobs "job-1" = none ∧
    ((summarize_job ⟨[], []⟩ "Alice: Hi. Bob: We ship Friday." "job-1").1
        = (200, ⟨"job-1", "queued"⟩) ∧
      lookupJob ((summarize_job ⟨[], []⟩ "Alice: Hi. Bob: We ship Friday." "job-1").2).jobs
        "job-1" = some ⟨"started", none⟩ ∧
      get_job ((summarize_job ⟨[], []⟩ "Alice: Hi. Bob: We ship Friday." "job-1").2).jobs
        "job-1" = Except.ok ⟨"started", none⟩) :=
  ⟨rfl, submit_returns_queued_and_record_started ⟨[], []⟩
    "Alice: Hi. Bob: We ship Friday." "job-1" rfl⟩

/-- C6: a status query for an identifier absent from the store fails with
a 404 response whose detail is job not found, and a query for a present
identifier returns the current record. -/
theorem get_job_not_found_or_current (s : Store) (job_id : String) :
    (lookupJob s job_id = none →
      get_job s job_id = Except.error (404, "job not found")) ∧
    (∀ j, lookupJob s job_id = some j → get_job s job_id = Except.ok j) := by
  constructor
  · intro h
    simp only [get_job, h]
  · intro j h
    simp only [get_job, h]

/-- Witness for C6: an unknown id yields the 404 with detail job not
found, a known id yields its record. -/
theorem get_job_not_found_or_current_witness :
    get_job [] "missing-id" = Except.error (404, "job not found") ∧
    get_job [("job-1", (⟨"started", none⟩ : Job))] "job-1"
      = Except.ok ⟨"started", none⟩ :=
  ⟨(get_job_not_found_or_current [] "missing-id").1 rfl,
   (get_job_not_found_or_current [("job-1", ⟨"started", none⟩)] "job-1").2
     ⟨"started", none⟩ rfl⟩

/-- C7: at every reachable state, an error field is present only on a
record whose status is failed, and the recorded text is exactly the
textual description of an error the runner raised for that job; moreover
the failure branch of the routine stores the caught description verbatim
on the record. -/
theorem error_field_only_failed_verbatim (beh : RunnerOracle) (s : SysState)
    (hr : Reachable beh s) :
    (∀ id j, lookupJob s.jobs id = some j → ∀ e, j.error = some e →
      j.status = "failed" ∧ ∃ t, (run_agents beh id t).2 = Except.error e) ∧
    (∀ pre post job_id transcript e,
      s.pending = pre ++ (job_id, transcript) :: post →
      (run_agents beh job_id transcript).2 = Except.error e →
      lookupJob (finishState beh s pre post job_id transcript).jobs job_id
        = some ⟨"failed", some e⟩) := by
  refine ⟨(reachable_inv hr).errorFailed, ?_⟩
  intro pre post job_id transcript e hp herr
  exact finish_lookup_error (reachable_inv hr) hp herr

/-- Witness for C7: the invariant applied at the concrete state reached by
one submission. -/
theorem error_field_only_failed_verbatim_witness :
    Reachable behBoom submittedState ∧
    ((∀ id j, lookupJob submittedState.jobs id = some j → ∀ e, j.error = some e →
        j.status = "failed" ∧ ∃ t, (run_agents behBoom id t).2 = Except.error e) ∧
      (∀ pre post job_id transcript e,
        submittedState.pending = pre ++ (job_id, transcript) :: post →
        (run_agents behBoom job_id transcript).2 = Except.error e →
        lookupJob (finishState behBoom submittedState pre post job_id transcript).jobs
          job_id = some ⟨"failed", some e⟩)) :=
  ⟨Reachable.step Reachable.init (Step.submit ⟨[], []⟩ "raw transcript" "job-1" rfl),
   error_field_only_failed_verbatim behBoom submittedState
     (Reachable.step Reachable.init (Step.submit ⟨[], []⟩ "raw transcript" "job-1" rfl))⟩

/-- C8: whenever the first two stages succeed, the third runner call is
invoked with the summarizer definition, the clarified text (the clarifier
output, or the clean text when that output is empty), and a context of the
fixed recipient list and a subject line derived from the job identifier. -/
theorem summarizer_call_payload (beh : RunnerOracle)
    (job_id transcript clean_text output2 : String)
    (h1 : beh ⟨transcriber, transcript, none⟩ = Except.ok clean_text)
    (h2 : beh ⟨clarifier, clean_text, none⟩ = Except.ok output2) :
    (run_agents beh job_id transcript).1 =
      [⟨transcriber, transcript, none⟩, ⟨clarifier, clean_text, none⟩,
       ⟨summarizer, if output2 = "" then clean_text else output2,
        some ⟨["team@example.com"], "Summary #" ++ job_id⟩⟩] := by
  cases h3 : beh ⟨summarizer, if output2 = "" then clean_text else output2,
      some ⟨["team@example.com"], "Summary #" ++ job_id⟩⟩ with
  | ok out => simp [run_agents, h1, h2, h3]
  | error e => simp [run_agents, h1, h2, h3]

/-- Witness for C8: a concrete oracle with a non-empty clarifier output;
the third call carries the summarizer agent, the clarified text, the fixed
recipient list and the subject derived from the job id. -/
theorem summarizer_call_payload_witness :
    behClar ⟨transcriber, "raw transcript", none⟩ = Except.ok "clean text" ∧
    behClar ⟨clarifier, "clean text", none⟩ = Except.ok "clarified text" ∧
    (run_agents behClar "job-1" "raw transcript").1 =
      [⟨transcriber, "raw transcript", none⟩, ⟨clarifier, "clean text", none⟩,
       ⟨summarizer, "clarified text",
        some ⟨["team@example.com"], "Summary #job-1"⟩⟩] := by
  refine ⟨rfl, rfl, ?_⟩
  have h := summarizer_call_payload behClar "job-1" "raw transcript"
    "clean text" "clarified text" rfl rfl
  simpa using h

/-- C3: in every reachable state each job identifier maps to exactly one
record (the key list of the store has no duplicates), and across any step
each existing record either stays unchanged or moves from started to
completed or to failed — monotone and terminal, with no re-entry into
started — no record is ever deleted, and every newly created record has
status started. -/
theorem job_store_single_record_monotone_terminal (beh : RunnerOracle)
    (s s' : SysState) (hr : Reachable beh s) (hst : Step beh s s') :
    ((s'.jobs.map Prod.fst).Nodup) ∧
    (∀ id j, lookupJob s.jobs id = some j →
      ∃ j', lookupJob s'.jobs id = some j' ∧
        (j' = j ∨ (j.status = "started" ∧
          (j'.status = "completed" ∨ j'.status = "failed")))) ∧
    (∀ id j', lookupJob s'.jobs id = some j' → lookupJob s.jobs id = none →
      j' = ⟨"started", none⟩) := by
  have hinv := reachable_inv hr
  have hinv' := inv_step hinv hst
  refine ⟨hinv'.keysNodup, ?_, ?_⟩
  · intro id j hj
    cases hst with
    | submit transcript job_id fresh =>
      have hne : job_id ≠ id := by
        intro heq
        rw [heq] at fresh
        rw [fresh] at hj
        cases hj
      refine ⟨j, ?_, Or.inl rfl⟩
      show lookupJob ((job_id, (⟨"started", none⟩ : Job)) :: s.jobs) id = some j
      rw [lookupJob, if_neg hne]
      exact hj
    | finish pre post job_id transcript hp =>
      by_cases hid : id = job_id
      · subst hid
        have hmid : (id, transcript) ∈ s.pending := by
          rw [hp]
          exact List.mem_append_right pre (List.mem_cons_self _ _)
        have hstarted := hinv.pendingStarted _ hmid
        rw [hj] at hstarted
        have hjs : j = ⟨"started", none⟩ := by injection hstarted
        cases hout : (run_agents beh id transcript).2 with
        | ok u =>
          exact ⟨⟨"completed", none⟩, finish_lookup_ok hinv hp hout,
            Or.inr ⟨by rw [hjs], Or.inl rfl⟩⟩
        | error e =>
          exact ⟨⟨"failed", some e⟩, finish_lookup_error hinv hp hout,
            Or.inr ⟨by rw [hjs], Or.inr rfl⟩⟩
      · refine ⟨j, ?_, Or.inl rfl⟩
        show lookupJob
          (applyOutcome s.jobs job_id (run_agents beh job_id transcript).2) id = some j
        cases hout : (run_agents beh job_id transcript).2 with
        | ok u =>
          simp only [applyOutcome]
          rw [lookupJob_setJob, if_neg hid]
          exact hj
        | error e =>
          simp only [applyOutcome]
          rw [lookupJob_setJob, if_neg hid]
          exact hj
  · intro id j' hj' hnone
    cases hst with
    | submit transcript job_id fresh =>
      have hj2 : lookupJob ((job_id, (⟨"started", none⟩ : Job)) :: s.jobs) id
          = some j' := hj'
      by_cases hid : job_id = id
      · rw [lookupJob, if_pos hid] at hj2
        injection hj2 with h
        exact h.symm
      · rw [lookupJob, if_neg hid] at hj2
        rw [hnone] at hj2
        cases hj2
    | finish pre post job_id transcript hp =>
      have hj2 : lookupJob
          (applyOutcome s.jobs job_id (run_agents beh job_id transcript).2) id
          = some j' := hj'
      cases hout : (run_agents beh job_id transcript).2 with
      | ok u =>
        rw [hout] at hj2
        simp only [applyOutcome] at hj2
        rw [lookupJob_setJob] at hj2
        by_cases hid : id = job_id
        · rw [hid] at hnone
          rw [if_pos hid, hnone] at hj2
          simp at hj2
        · rw [if_neg hid, hnone] at hj2
          cases hj2
      | error e =>
        rw [hout] at hj2
        simp only [applyOutcome] at hj2
        rw [lookupJob_setJob] at hj2
        by_cases hid : id = job_id
        · rw [hid] at hnone
          rw [if_pos hid, hnone] at hj2
          simp at hj2
        · rw [if_neg hid, hnone] at hj2
          cases hj2

/-- Witness for C3: the submit step out of the empty start state, run
through the theorem. -/
theorem job_store_single_record_monotone_terminal_witness :
    Reachable behOK (⟨[], []⟩ : SysState) ∧
    Step behOK ⟨[], []⟩ submittedState ∧
    (((submittedState.jobs.map Prod.fst).Nodup) ∧
      (∀ id j, lookupJob (⟨[], []⟩ : SysState).jobs id = some j →
        ∃ j', lookupJob submittedState.jobs id = some j' ∧
          (j' = j ∨ (j.status = "started" ∧
            (j'.status = "completed" ∨ j'.status = "failed")))) ∧
      (∀ id j', lookupJob submittedState.jobs id = some j' →
        lookupJob (⟨[], []⟩ : SysState).jobs id = none →
        j' = ⟨"started", none⟩)) :=
  ⟨Reachable.init, Step.submit ⟨[], []⟩ "raw transcript" "job-1" rfl,
   job_store_single_record_monotone_terminal behOK ⟨[], []⟩ submittedState
     Reachable.init (Step.submit ⟨[], []⟩ "raw transcript" "job-1" rfl)⟩

/-- C9 evaluation: the three agent definitions are static configuration
records with string model identifiers naming a remote model; the
transcriber and clarifier bind no tools and the summarizer binds exactly
the send-email stub; the transcriber and summarizer instructions are
strings, but the clarifier instructions value is a one-element tuple of
strings — the parenthesized argument in the source ends in a trailing
comma — so the clarifier instructions attribute is not a string, contrary
to the claim and to the documented intent of free-text instructions. -/
theorem clarifier_instructions_tuple_not_string :
    clarifier.instructions = Instructions.tuple
      ["Read the transcript and ask the summarizer to resolve any ambiguous points before final summary is produced."] ∧
    clarifier.instructions.isStr = false ∧
    transcriber.instructions.isStr = true ∧
    summarizer.instructions.isStr = true ∧
    transcriber.tools = [] ∧
    clarifier.tools = [] ∧
    summarizer.tools = [sendEmailTool] ∧
    transcriber.model = "gemini-1.5-flash" ∧
    clarifier.model = "gemini-1.5-flash" ∧
    summarizer.model = "gemini-1.5-flash" :=
  ⟨rfl, rfl, rfl, rfl, rfl, rfl, rfl, rfl, rfl, rfl⟩

/-- C10: in every reachable state, every scheduled background task refers
to a job identifier that is already a key of the store, so the dictionary
indexings performed by both the success branch and the failure branch of
the routine find an existing record and never fail with a missing key. -/
theorem pending_task_id_in_store (beh : RunnerOracle) (s : SysState)
    (hr : Reachable beh s) :
    ∀ p ∈ s.pending, (lookupJob s.jobs p.1).isSome ∧
      p.1 ∈ s.jobs.map Prod.fst := by
  intro p hp
  have h := (reachable_inv hr).pendingStarted p hp
  refine ⟨by rw [h]; rfl, ?_⟩
  exact (lookupJob_isSome_iff _ _).1 (by rw [h]; rfl)

/-- Witness for C10: the scheduled task of the concrete submitted state
indexes a present key. -/
theorem pending_task_id_in_store_witness :
    Reachable behOK submittedState ∧
    (∀ p ∈ submittedState.pending, (lookupJob submittedState.jobs p.1).isSome ∧
      p.1 ∈ submittedState.jobs.map Prod.fst) :=
  ⟨Reachable.step Reachable.init (Step.submit ⟨[], []⟩ "raw transcript" "job-1" rfl),
   pending_task_id_in_store behOK submittedState
     (Reachable.step Reachable.init (Step.submit ⟨[], []⟩ "raw transcript" "job-1" rfl))⟩

end MeetingSummarizer
